import Mathlib

/-!
Shallow embedding of the Lovania contact/lead-intake system:
the Netlify function handler for POST/GET /api/contact
(netlify/functions/contact.ts, embedded here from the repository source),
the admin dashboard helpers `updateSubmissionStatus` and `exportToCSV`
(AdminDashboard.tsx), and the client-side email validation regex of
ContactForm.tsx.

Modelling conventions:
- JSON-object fields that may be absent are `Option String`; JavaScript
  string truthiness (`undefined` and `""` are falsy, every other string
  truthy, including whitespace-only ones) is the `truthy` predicate.
- `Date.now()` / `new Date().toISOString()` are modelled by a `now : Nat`
  parameter (epoch milliseconds); the ISO-8601 string stored in
  `timestamp` is identified with the instant it denotes, since
  `toISOString` / `getTime` round-trip it.
- `Math.random().toString(36).substr(2, 9)` is modelled by a
  `rand : String` parameter (in the code it is a base-36 string, hence
  it never contains an underscore).
- `JSON.parse(event.body || "\x7b\x7d")` is modelled by `BodyInput`:
  an absent body falls back to the empty-object literal (all fields
  absent), an unparseable body throws, which the surrounding try/catch
  turns into the 500 response.
- The Netlify blob store is an association list keyed by submission id;
  `store.set` overwrites the entry with the same key or appends.
- The result of `sendEmailNotification` (whose only failure mode is an
  exception inside its try block, modelled by the `notifyFail` flag)
  is recorded as the third component of the handler result so that
  theorems can talk about it; the code discards it.
-/

namespace Lovania

/-- Triage state of a submission: the `status` union type of the
`ContactSubmission` interface. -/
inductive Status where
  | new
  | reviewed
  | responded
deriving DecidableEq, Repr

/-- Rendering of a `Status` value as the string literal used in the code. -/
def statusStr : Status → String
  | .new => "new"
  | .reviewed => "reviewed"
  | .responded => "responded"

/-- Position of a status in the `new → reviewed → responded` progression
(used to state monotonicity claims about transitions). -/
def statusRank : Status → Nat
  | .new => 0
  | .reviewed => 1
  | .responded => 2

/-- The `contactInfo` object of a request body.  Every field is optional
because a client may omit any of them; the handler checks presence with
JavaScript truthiness. -/
structure ContactInfo where
  name : Option String
  email : Option String
  company : Option String
  phone : Option String
deriving DecidableEq, Repr

/-- The `projectDetails` object of a request body. -/
structure ProjectDetails where
  projectType : Option String
  description : Option String
  timeline : Option String
  budget : Option String
  requirements : Option String
deriving DecidableEq, Repr

/-- A stored submission record (the `ContactSubmission` interface of
contact.ts and AdminDashboard.tsx).  `timestamp` is the creation instant
in epoch milliseconds (the code stores its ISO-8601 rendering). -/
structure ContactSubmission where
  id : String
  timestamp : Nat
  contactInfo : ContactInfo
  projectDetails : ProjectDetails
  status : Status
  notes : Option String
deriving DecidableEq, Repr

/-- A parsed POST body: `const \x7b contactInfo, projectDetails \x7d = body`,
each possibly absent. -/
structure RequestBody where
  contactInfo : Option ContactInfo
  projectDetails : Option ProjectDetails
deriving DecidableEq, Repr

/-- The raw `event.body` of a POST request, abstracted to the three cases
the handler distinguishes: absent (`event.body` null, the code substitutes
the empty-object literal), present but not parseable JSON
(`JSON.parse` throws), or parseable to a `RequestBody`. -/
inductive BodyInput where
  | absent
  | malformed
  | parsed (b : RequestBody)
deriving DecidableEq, Repr

/-- Parsing the empty-object literal yields an object with no
`contactInfo` and no `projectDetails` field. -/
def emptyBody : RequestBody := ⟨none, none⟩

/-- The observable part of an HTTP response produced by the handler:
status code and the fields of the JSON body (`error` for failure bodies,
`success`/`id`/`message` for the creation success body). -/
structure Response where
  statusCode : Nat
  error : Option String
  success : Bool
  id : Option String
  message : Option String
deriving DecidableEq, Repr

/-- An error response, as built by the handler's failure branches. -/
def errResp (code : Nat) (msg : String) : Response :=
  ⟨code, some msg, false, none, none⟩

/-- The 200 creation response
`\x7b success: true, id: submission.id, message: ... \x7d`. -/
def okResp (id : String) : Response :=
  ⟨200, none, true, some id, some "Submission received successfully"⟩

/-- The blob store `contact-submissions`: an association list from
submission id to record. -/
abbrev Store := List (String × ContactSubmission)

/-- JavaScript truthiness of an optional string field: `undefined` and
the empty string are falsy, every other string (whitespace included)
is truthy. -/
def truthy : Option String → Bool
  | none => false
  | some s => !(s == "")

/-- Decimal digit character, as produced by JavaScript number-to-string
conversion for a digit value below ten. -/
def decDigit (d : Nat) : Char := Char.ofNat (48 + d)

/-- Fuel-driven decimal rendering of a natural number (most significant
digit first).  The fuel only serves structural termination; `decStr`
supplies enough of it. -/
def decCharsAux (fuel n : Nat) : List Char :=
  match fuel with
  | 0 => []
  | fuel' + 1 =>
    if n < 10 then [decDigit n]
    else decCharsAux fuel' (n / 10) ++ [decDigit (n % 10)]

/-- Decimal digit list of a natural number. -/
def decChars (n : Nat) : List Char := decCharsAux (n + 1) n

/-- Decimal string of a natural number: the embedding of the JavaScript
template interpolation of an integer-valued number. -/
def decStr (n : Nat) : String := String.mk (decChars n)

/-- The id generation of the handler:
backtick-template sub underscore Date.now() underscore random-token,
with the time component `now` and the random component `rand`. -/
def mkId (now : Nat) (rand : String) : String :=
  "sub_" ++ decStr now ++ "_" ++ rand

/-- The submission object built by the handler on a valid POST:
fresh id, server timestamp, the received contact and project objects,
status `new`, no notes field. -/
def newSubmission (now : Nat) (rand : String)
    (ci : ContactInfo) (pd : ProjectDetails) : ContactSubmission :=
  ⟨mkId now rand, now, ci, pd, Status.new, none⟩

/-- The embedding of `sendEmailNotification`: its try block formats the
message and (in the current code) only logs it; any exception inside the
try block — modelled by the `internalFailure` flag — is caught and turned
into `false`, otherwise it returns `true`.  It never throws to its
caller. -/
def sendEmailNotification (internalFailure : Bool)
    (_submission : ContactSubmission) : Bool :=
  if internalFailure then false else true

/-- The blob store `set` operation: overwrite the record stored under the
key if present, otherwise add it. -/
def storeSet (store : Store) (k : String) (v : ContactSubmission) : Store :=
  if store.any (fun p => p.1 == k) then
    store.map (fun p => if p.1 == k then (k, v) else p)
  else
    store ++ [(k, v)]

/-- The POST branch of the handler after a successful `JSON.parse`:
required-field validation by truthiness (contact fields first, then
project fields), then construction of the submission, `store.set`, and
the notification attempt.  Returns the response, the store after the
request, and the result of the notification attempt (`none` when no
notification was attempted). -/
def postBody (notifyFail : Bool) (now : Nat) (rand : String)
    (b : RequestBody) (store : Store) : Response × Store × Option Bool :=
  match b.contactInfo with
  | none => (errResp 400 "Missing required contact information", store, none)
  | some ci =>
    if !(truthy ci.name && truthy ci.email && truthy ci.company) then
      (errResp 400 "Missing required contact information", store, none)
    else
      match b.projectDetails with
      | none => (errResp 400 "Missing required project details", store, none)
      | some pd =>
        if !(truthy pd.projectType && truthy pd.description &&
             truthy pd.timeline) then
          (errResp 400 "Missing required project details", store, none)
        else
          let sub := newSubmission now rand ci pd
          (okResp sub.id, storeSet store sub.id sub,
            some (sendEmailNotification notifyFail sub))

/-- The POST branch of the handler including body parsing: an absent
body is replaced by the empty-object literal before parsing; a present
but unparseable body makes `JSON.parse` throw, which the catch block
turns into the 500 response with no store write. -/
def postHandler (notifyFail : Bool) (now : Nat) (rand : String)
    (input : BodyInput) (store : Store) : Response × Store × Option Bool :=
  match input with
  | .absent => postBody notifyFail now rand emptyBody store
  | .malformed => (errResp 500 "Failed to process submission", store, none)
  | .parsed b => postBody notifyFail now rand b store

/-- Reading every record of the store (`store.list()` followed by
`store.get` on each key); the underlying order is the store's own. -/
def getAll (store : Store) : List ContactSubmission :=
  store.map Prod.snd

/-- The GET branch of the handler: read all records and sort them by
timestamp, newest first (the comparator timeB minus timeA). -/
def getHandler (store : Store) : List ContactSubmission :=
  (getAll store).mergeSort (fun a b => decide (b.timestamp ≤ a.timestamp))

/-- The dashboard's `updateSubmissionStatus`: map over the submission
list, and on the entry whose id matches, replace the status and — only
when a notes argument was supplied — the notes field (object spread of
`notes !== undefined && \x7b notes \x7d`). -/
def updateSubmissionStatus (subs : List ContactSubmission) (id : String)
    (status : Status) (notes : Option String) : List ContactSubmission :=
  subs.map fun sub =>
    if sub.id = id then
      { sub with
        status := status
        notes := match notes with
          | some n => some n
          | none => sub.notes }
    else sub

/-- Doubling of internal double quotes on the character list:
the replace-all of a double quote by two of them. -/
def escQ : List Char → List Char
  | [] => []
  | c :: rest => (if c = '"' then ['"', '"'] else [c]) ++ escQ rest

/-- The CSV quoting used by `exportToCSV` for the description and
requirements columns: the value with every internal double quote
doubled, wrapped in double quotes. -/
def quoteField (s : String) : String :=
  "\"" ++ String.mk (escQ s.data) ++ "\""

/-- Rendering of an optional field by `Array.prototype.join` (and by the
or-empty fallbacks in the row): an absent value becomes the empty
string. -/
def optStr (o : Option String) : String := o.getD ""

/-- One data row of `exportToCSV`, as the list of its twelve column
values in the fixed column order.  The description column accesses
`.replace` on the field without optional chaining, so on a record with
an absent description the export throws instead of producing a row
(the `none` case); requirements uses optional chaining with an or-empty
fallback. -/
def csvRow (sub : ContactSubmission) : Option (List String) :=
  match sub.projectDetails.description with
  | none => none
  | some d => some
    [ sub.id,
      decStr sub.timestamp,
      optStr sub.contactInfo.name,
      optStr sub.contactInfo.email,
      optStr sub.contactInfo.company,
      optStr sub.contactInfo.phone,
      optStr sub.projectDetails.projectType,
      optStr sub.projectDetails.timeline,
      optStr sub.projectDetails.budget,
      statusStr sub.status,
      quoteField d,
      quoteField (optStr sub.projectDetails.requirements) ]

/-- Modelled from the spec: the standard reversal of CSV double-quote
escaping — collapse every doubled double quote to a single one.  Used to
state the round-trip property of the export. -/
def unescQ : List Char → List Char
  | [] => []
  | [c] => [c]
  | c₁ :: c₂ :: rest =>
    if c₁ = '"' ∧ c₂ = '"' then '"' :: unescQ rest
    else c₁ :: unescQ (c₂ :: rest)

/-- Modelled from the spec: reversing the standard CSV field quoting —
strip one double quote from each end and collapse doubled quotes; fails
on a field that is not quoted. -/
def unquoteField (s : String) : Option String :=
  match s.data with
  | '"' :: rest =>
    if rest.getLast? = some '"' then
      some (String.mk (unescQ rest.dropLast))
    else none
  | _ => none

/-- Character class of the client email regex between separators:
anything that is neither whitespace nor an at sign. -/
def okEmailChar (c : Char) : Bool := !c.isWhitespace && !(c == '@')

/-- Split a character list at its first at sign: the prefix before it
and, when one exists, the remainder after it. -/
def breakAt : List Char → List Char × Option (List Char)
  | [] => ([], none)
  | c :: rest =>
    if c = '@' then ([], some rest)
    else
      let p := breakAt rest
      (c :: p.1, p.2)

/-- The client-side email check of ContactForm.tsx: the anchored regex
caret [^\s@]+ at [^\s@]+ dot [^\s@]+ dollar, decided directly: the
string must consist of a nonempty whitespace-free local part, a single
at sign, and a remainder that is whitespace-free, free of further at
signs, and contains a dot that is neither its first nor its last
character. -/
def emailValid (s : String) : Bool :=
  match breakAt s.data with
  | (_, none) => false
  | (l, some r) =>
    !l.isEmpty && l.all okEmailChar && r.all okEmailChar &&
      ((r.drop 1).dropLast).contains '.'

/-! ## Helper lemmas about the decimal rendering and id generation -/

/-- Decoding of a decimal digit list, used to show the rendering is
injective. -/
def decVal (cs : List Char) : Nat :=
  cs.foldl (fun a c => 10 * a + (c.toNat - 48)) 0

theorem decDigit_toNat {d : Nat} (h : d < 10) : (decDigit d).toNat = 48 + d := by
  interval_cases d <;> decide

theorem decDigit_ne_underscore {d : Nat} (h : d < 10) : decDigit d ≠ '_' := by
  interval_cases d <;> decide

theorem decVal_concat (cs : List Char) (c : Char) :
    decVal (cs ++ [c]) = 10 * decVal cs + (c.toNat - 48) := by
  simp [decVal, List.foldl_append]

theorem decCharsAux_val :
    ∀ fuel n, n < 10 ^ fuel → decVal (decCharsAux fuel n) = n := by
  intro fuel
  induction fuel with
  | zero =>
    intro n hn
    simp at hn
    simp [hn, decCharsAux, decVal]
  | succ fuel ih =>
    intro n hn
    by_cases h : n < 10
    · simp [decCharsAux, h, decVal, decDigit_toNat h]
    · have hdiv : n / 10 < 10 ^ fuel := by
        rw [Nat.div_lt_iff_lt_mul (by norm_num)]
        calc n < 10 ^ (fuel + 1) := hn
        _ = 10 ^ fuel * 10 := by ring
      simp only [decCharsAux, if_neg h]
      rw [decVal_concat, ih _ hdiv, decDigit_toNat (Nat.mod_lt _ (by norm_num))]
      omega

theorem decChars_val (n : Nat) : decVal (decChars n) = n := by
  have : n < 10 ^ (n + 1) :=
    lt_of_lt_of_le (Nat.lt_pow_self (by norm_num) n)
      (Nat.pow_le_pow_right (by norm_num) (Nat.le_succ n))
  exact decCharsAux_val _ _ this

theorem decChars_inj {m n : Nat} (h : decChars m = decChars n) : m = n := by
  have := congrArg decVal h
  rwa [decChars_val, decChars_val] at this

theorem decCharsAux_ne_underscore :
    ∀ fuel n, ∀ c ∈ decCharsAux fuel n, c ≠ '_' := by
  intro fuel
  induction fuel with
  | zero => intro n c hc; simp [decCharsAux] at hc
  | succ fuel ih =>
    intro n c hc
    by_cases h : n < 10
    · simp [decCharsAux, h] at hc
      exact hc ▸ decDigit_ne_underscore h
    · simp [decCharsAux, h, List.mem_append] at hc
      rcases hc with hc | hc
      · exact ih _ _ hc
      · exact hc ▸ decDigit_ne_underscore (Nat.mod_lt _ (by norm_num))

theorem decChars_ne_underscore (n : Nat) : ∀ c ∈ decChars n, c ≠ '_' :=
  decCharsAux_ne_underscore _ _

theorem underscore_split :
    ∀ (a₁ : List Char) {b₁ a₂ b₂ : List Char},
      (∀ c ∈ a₁, c ≠ '_') → (∀ c ∈ a₂, c ≠ '_') →
      a₁ ++ '_' :: b₁ = a₂ ++ '_' :: b₂ → a₁ = a₂ ∧ b₁ = b₂ := by
  intro a₁
  induction a₁ with
  | nil =>
    intro b₁ a₂ b₂ _ h₂ heq
    cases a₂ with
    | nil => simpa using heq
    | cons c t =>
      simp at heq
      exact absurd heq.1.symm (h₂ c (by simp))
  | cons c t ih =>
    intro b₁ a₂ b₂ h₁ h₂ heq
    cases a₂ with
    | nil =>
      simp at heq
      exact absurd heq.1 (h₁ c (by simp))
    | cons c' t' =>
      simp only [List.cons_append, List.cons.injEq] at heq
      obtain ⟨rfl, heq⟩ := heq
      obtain ⟨rfl, rfl⟩ :=
        ih (fun x hx => h₁ x (by simp [hx])) (fun x hx => h₂ x (by simp [hx])) heq
      exact ⟨rfl, rfl⟩

theorem mkId_inj {n₁ n₂ : Nat} {r₁ r₂ : String}
    (h : mkId n₁ r₁ = mkId n₂ r₂) : n₁ = n₂ ∧ r₁ = r₂ := by
  have hd := congrArg String.data h
  simp only [mkId, decStr, String.data_append] at hd
  have hd' : ['s', 'u', 'b', '_'] ++ (decChars n₁ ++ '_' :: r₁.data) =
      ['s', 'u', 'b', '_'] ++ (decChars n₂ ++ '_' :: r₂.data) := by
    simpa using hd
  have hsplit := underscore_split (decChars n₁)
    (decChars_ne_underscore n₁)
    (decChars_ne_underscore n₂)
    (List.append_cancel_left hd')
  exact ⟨decChars_inj hsplit.1, String.ext hsplit.2⟩

theorem mkId_ne_empty (n : Nat) (r : String) : mkId n r ≠ "" := by
  intro h
  have := congrArg String.data h
  simp [mkId, String.data_append] at this

/-! ## Helper lemmas about CSV quoting -/

theorem escQ_eq_nil {cs : List Char} (h : escQ cs = []) : cs = [] := by
  cases cs with
  | nil => rfl
  | cons c t =>
    by_cases hc : c = '"' <;> simp [escQ, hc] at h

theorem unescQ_escQ : ∀ cs, unescQ (escQ cs) = cs := by
  intro cs
  induction cs with
  | nil => rfl
  | cons c t ih =>
    by_cases hc : c = '"'
    · subst hc
      simpa [escQ, unescQ] using ih
    · simp only [escQ, if_neg hc, List.singleton_append]
      cases he : escQ t with
      | nil => simp [unescQ, escQ_eq_nil he, he ▸ ih]
      | cons d rest =>
        rw [he] at ih
        simpa [unescQ, hc] using ih

theorem unquoteField_quoteField (s : String) :
    unquoteField (quoteField s) = some s := by
  have hdata : (quoteField s).data = '"' :: (escQ s.data ++ ['"']) := by
    simp [quoteField, String.data_append]
  simp only [unquoteField, hdata, List.getLast?_concat, List.dropLast_concat,
    if_pos rfl]
  rw [unescQ_escQ]
  cases s
  rfl

/-! ## Helper lemmas about the email regex -/

theorem breakAt_no_at {cs : List Char} (h : '@' ∉ cs) :
    breakAt cs = (cs, none) := by
  induction cs with
  | nil => rfl
  | cons c t ih =>
    have hc : c ≠ '@' := fun hc => h (by simp [hc])
    have ht : '@' ∉ t := fun ht => h (by simp [ht])
    simp [breakAt, hc, ih ht]

theorem breakAt_some :
    ∀ (cs l r : List Char), breakAt cs = (l, some r) → cs = l ++ '@' :: r := by
  intro cs
  induction cs with
  | nil => intro l r h; simp [breakAt] at h
  | cons c t ih =>
    intro l r h
    by_cases hc : c = '@'
    · subst hc
      simp [breakAt] at h
      simp [← h.1, h.2]
    · simp only [breakAt, if_neg hc] at h
      obtain ⟨rfl, h2⟩ := Prod.mk.injEq _ _ _ _ ▸ h
      have := ih (breakAt t).1 r (by rw [← h2])
      simp [← this]

theorem emailValid_no_at {s : String} (h : '@' ∉ s.data) :
    emailValid s = false := by
  simp [emailValid, breakAt_no_at h]

theorem emailValid_structure {s : String} (h : emailValid s = true) :
    ∃ l r, s.data = l ++ '@' :: r ∧ l ≠ [] ∧ '.' ∈ r := by
  unfold emailValid at h
  cases hb : breakAt s.data with
  | mk l ro =>
    cases ro with
    | none => rw [hb] at h; simp at h
    | some r =>
      rw [hb] at h
      simp only [Bool.and_eq_true] at h
      refine ⟨l, r, breakAt_some _ _ _ hb, ?_, ?_⟩
      · intro hl
        rw [hl] at h
        simp at h
      · have hc : '.' ∈ (r.drop 1).dropLast := by
          have := h.2
          simpa using this
        exact (List.drop_sublist 1 r).subset (List.dropLast_subset _ hc)

/-! ## Helper lemmas about the POST handler -/

/-- The conjunction of the six required-field truthiness checks the
handler performs (optional chaining modelled by `Option.bind`). -/
def validBody (b : RequestBody) : Bool :=
  truthy (b.contactInfo.bind ContactInfo.name) &&
  truthy (b.contactInfo.bind ContactInfo.email) &&
  truthy (b.contactInfo.bind ContactInfo.company) &&
  truthy (b.projectDetails.bind ProjectDetails.projectType) &&
  truthy (b.projectDetails.bind ProjectDetails.description) &&
  truthy (b.projectDetails.bind ProjectDetails.timeline)

theorem validBody_elim {b : RequestBody} (hv : validBody b = true) :
    ∃ ci pd, b.contactInfo = some ci ∧ b.projectDetails = some pd ∧
      truthy ci.name = true ∧ truthy ci.email = true ∧
      truthy ci.company = true ∧ truthy pd.projectType = true ∧
      truthy pd.description = true ∧ truthy pd.timeline = true := by
  cases hci : b.contactInfo with
  | none => simp [validBody, hci, truthy] at hv
  | some ci =>
    cases hpd : b.projectDetails with
    | none => simp [validBody, hci, hpd, truthy] at hv
    | some pd =>
      simp only [validBody, hci, hpd, Option.bind_some, Bool.and_eq_true] at hv
      exact ⟨ci, pd, rfl, rfl, hv.1.1.1.1.1, hv.1.1.1.1.2, hv.1.1.1.2,
        hv.1.1.2, hv.1.2, hv.2⟩

theorem postBody_valid_eq (f : Bool) (now : Nat) (rand : String)
    {b : RequestBody} {ci : ContactInfo} {pd : ProjectDetails} (store : Store)
    (hci : b.contactInfo = some ci) (hpd : b.projectDetails = some pd)
    (hn : truthy ci.name = true) (he : truthy ci.email = true)
    (hc : truthy ci.company = true) (hp : truthy pd.projectType = true)
    (hd : truthy pd.description = true) (ht : truthy pd.timeline = true) :
    postBody f now rand b store =
      (okResp (mkId now rand),
       storeSet store (mkId now rand) (newSubmission now rand ci pd),
       some (sendEmailNotification f (newSubmission now rand ci pd))) := by
  simp [postBody, hci, hpd, hn, he, hc, hp, hd, ht, newSubmission]

theorem postBody_invalid (f : Bool) (now : Nat) (rand : String)
    {b : RequestBody} (store : Store) (hv : validBody b = false) :
    (postBody f now rand b store).1.statusCode = 400 ∧
    (postBody f now rand b store).1.success = false ∧
    (postBody f now rand b store).2.1 = store ∧
    (postBody f now rand b store).2.2 = none := by
  cases hci : b.contactInfo with
  | none => simp [postBody, hci, errResp]
  | some ci =>
    by_cases h1 : (truthy ci.name && truthy ci.email && truthy ci.company) = true
    · cases hpd : b.projectDetails with
      | none => simp [postBody, hci, hpd, h1, errResp]
      | some pd =>
        by_cases h2 :
            (truthy pd.projectType && truthy pd.description &&
              truthy pd.timeline) = true
        · exfalso
          simp only [Bool.and_eq_true] at h1 h2
          simp [validBody, hci, hpd, h1.1.1, h1.1.2, h1.2,
            h2.1.1, h2.1.2, h2.2] at hv
        · rw [Bool.not_eq_true] at h2
          simp [postBody, hci, hpd, h1, h2, errResp]
    · rw [Bool.not_eq_true] at h1
      simp [postBody, hci, h1, errResp]

theorem postBody_notify_irrelevant (f f' : Bool) (now : Nat) (rand : String)
    (b : RequestBody) (store : Store) :
    (postBody f now rand b store).1 = (postBody f' now rand b store).1 ∧
    (postBody f now rand b store).2.1 = (postBody f' now rand b store).2.1 := by
  cases hci : b.contactInfo with
  | none => simp [postBody, hci]
  | some ci =>
    by_cases h1 : (truthy ci.name && truthy ci.email && truthy ci.company) = true
    · cases hpd : b.projectDetails with
      | none => simp [postBody, hci, hpd, h1]
      | some pd =>
        by_cases h2 :
            (truthy pd.projectType && truthy pd.description &&
              truthy pd.timeline) = true
        · simp [postBody, hci, hpd, h1, h2]
        · rw [Bool.not_eq_true] at h2
          simp [postBody, hci, hpd, h1, h2]
    · rw [Bool.not_eq_true] at h1
      simp [postBody, hci, h1]

/-! ## Concrete example data used by counterexamples and witnesses -/

/-- The contact block of the spec's concrete scenario. -/
def exCI : ContactInfo :=
  ⟨some "John Smith", some "john@example.com", some "TechCorp",
   some "+1-555-0123"⟩

/-- The project block of the spec's concrete scenario. -/
def exPD : ProjectDetails :=
  ⟨some "System Architecture", some "Need help with scalable infrastructure",
   some "3-6 months", some "$100k - $250k", some "AWS, Kubernetes"⟩

/-- A fully valid request body. -/
def exBody : RequestBody := ⟨some exCI, some exPD⟩

/-- A request body whose email has no at sign at all but is a nonempty
string. -/
def bodyNoAt : RequestBody :=
  ⟨some ⟨some "John Smith", some "ab.com", some "TechCorp", none⟩, some exPD⟩

/-- A request body whose name is present but consists of a single
space. -/
def bodyBlankName : RequestBody :=
  ⟨some ⟨some " ", some "john@example.com", some "TechCorp", none⟩, some exPD⟩

/-- A request body whose company is present but is the empty string. -/
def bodyEmptyCompany : RequestBody :=
  ⟨some ⟨some "John Smith", some "john@example.com", some "", none⟩, some exPD⟩

/-- A request body with the company field absent. -/
def bodyNoCompany : RequestBody :=
  ⟨some ⟨some "John Smith", some "john@example.com", none, none⟩, some exPD⟩

/-- A stored submission in the responded state. -/
def exSubResponded : ContactSubmission := ⟨"s1", 10, exCI, exPD, .responded, none⟩

/-- A stored submission whose description contains a double quote. -/
def exSubQuote : ContactSubmission :=
  ⟨"s2", 5, exCI,
   ⟨some "System Architecture", some "say \"hi\" twice", some "3-6 months",
    none, some "needs \"quotes\""⟩,
   .new, none⟩

/-! ## C1 -/

/-- C1, counterexample: the claim says a POST whose email value has no
at sign is rejected with a 400 ValidationError, but the handler performs
no email-format check: the request body whose email is the nonempty
at-sign-free string ab.com is accepted with status 200 and its record is
persisted to the store. -/
theorem C1_counterexample :
    (postHandler false 5 "k3j9f2h1a" (BodyInput.parsed bodyNoAt) []).1.statusCode
        = 200 ∧
    ¬ ((postHandler false 5 "k3j9f2h1a"
        (BodyInput.parsed bodyNoAt) []).1.statusCode = 400) ∧
    (postHandler false 5 "k3j9f2h1a" (BodyInput.parsed bodyNoAt) []).2.1 =
      [("sub_5_k3j9f2h1a",
        ⟨"sub_5_k3j9f2h1a", 5,
         ⟨some "John Smith", some "ab.com", some "TechCorp", none⟩, exPD,
         .new, none⟩)] := by
  refine ⟨rfl, by decide, ?_⟩
  rfl

/-- C1, amended: the POST handler performs no email-format validation —
any request whose email is a nonempty string (with the other required
fields present) is accepted with 200; the permissive at-sign-and-dot
pattern is enforced only client-side by validateContactInfo, whose regex
rejects every string without an at sign, accepts only strings with an at
sign followed later by a dot, and classifies the spec's examples as
stated (a at b dot c accepted, a at b rejected, ab dot com rejected). -/
theorem C1_amended (f : Bool) (now : Nat) (rand : String) (b : RequestBody)
    (ci : ContactInfo) (pd : ProjectDetails) (e t u : String) (store : Store)
    (hci : b.contactInfo = some ci) (hpd : b.projectDetails = some pd)
    (hemail : ci.email = some e) (he : e ≠ "")
    (hn : truthy ci.name = true) (hc : truthy ci.company = true)
    (hp : truthy pd.projectType = true) (hd : truthy pd.description = true)
    (ht : truthy pd.timeline = true)
    (hat : '@' ∉ t.data) (hu : emailValid u = true) :
    (postBody f now rand b store).1 = okResp (mkId now rand) ∧
    (postBody f now rand b store).2.1 =
      storeSet store (mkId now rand) (newSubmission now rand ci pd) ∧
    emailValid t = false ∧
    (∃ l r, u.data = l ++ '@' :: r ∧ l ≠ [] ∧ '.' ∈ r) ∧
    emailValid "a@b.c" = true ∧ emailValid "a@b" = false ∧
    emailValid "ab.com" = false := by
  have hte : truthy ci.email = true := by
    simp [truthy, hemail, he]
  rw [postBody_valid_eq f now rand store hci hpd hn hte hc hp hd ht]
  refine ⟨rfl, rfl, emailValid_no_at hat, emailValid_structure hu, ?_, ?_, ?_⟩
    <;> decide

/-- C1, witness for the amended theorem at concrete inputs: the body
whose email is ab.com is accepted by the server, while the client regex
rejects ab.com and accepts x at y dot z. -/
theorem C1_witness :
    (postBody false 3 "r1" bodyNoAt []).1 = okResp (mkId 3 "r1") ∧
    (postBody false 3 "r1" bodyNoAt []).2.1 =
      storeSet [] (mkId 3 "r1")
        (newSubmission 3 "r1"
          ⟨some "John Smith", some "ab.com", some "TechCorp", none⟩ exPD) ∧
    emailValid "ab.com" = false ∧
    (∃ l r, "x@y.z".data = l ++ '@' :: r ∧ l ≠ [] ∧ '.' ∈ r) ∧
    emailValid "a@b.c" = true ∧ emailValid "a@b" = false ∧
    emailValid "ab.com" = false :=
  C1_amended false 3 "r1" bodyNoAt
    ⟨some "John Smith", some "ab.com", some "TechCorp", none⟩ exPD
    "ab.com" "ab.com" "x@y.z" []
    rfl rfl rfl (by decide) rfl rfl (by decide) (by decide) (by decide)
    (by decide) (by decide)

/-! ## C2 -/

/-- C2, confirmed: a POST whose parsed body is missing any of the six
required fields (contact name, email, company; project type,
description, timeline) is answered with a 400 ValidationError and the
store is not written, so a subsequent GET listing returns exactly what
it returned before. -/
theorem C2_missing_field_rejected_no_write (f : Bool) (now : Nat)
    (rand : String) (b : RequestBody) (store : Store)
    (hmiss : b.contactInfo.bind ContactInfo.name = none ∨
      b.contactInfo.bind ContactInfo.email = none ∨
      b.contactInfo.bind ContactInfo.company = none ∨
      b.projectDetails.bind ProjectDetails.projectType = none ∨
      b.projectDetails.bind ProjectDetails.description = none ∨
      b.projectDetails.bind ProjectDetails.timeline = none) :
    (postHandler f now rand (BodyInput.parsed b) store).1.statusCode = 400 ∧
    (postHandler f now rand (BodyInput.parsed b) store).1.success = false ∧
    (postHandler f now rand (BodyInput.parsed b) store).2.1 = store ∧
    getHandler (postHandler f now rand (BodyInput.parsed b) store).2.1 =
      getHandler store := by
  have hv : validBody b = false := by
    rcases hmiss with h | h | h | h | h | h <;>
      simp [validBody, h, truthy]
  have := postBody_invalid f now rand store hv
  refine ⟨this.1, this.2.1, this.2.2.1, ?_⟩
  rw [show (postHandler f now rand (BodyInput.parsed b) store) =
    postBody f now rand b store from rfl, this.2.2.1]

/-- C2, witness: the submission with the company field omitted is
rejected with 400 and the (empty) store stays empty. -/
theorem C2_witness :
    (postHandler false 9 "w2" (BodyInput.parsed bodyNoCompany) []).1.statusCode
        = 400 ∧
    (postHandler false 9 "w2"
        (BodyInput.parsed bodyNoCompany) []).1.success = false ∧
    (postHandler false 9 "w2" (BodyInput.parsed bodyNoCompany) []).2.1 = [] ∧
    getHandler (postHandler false 9 "w2"
        (BodyInput.parsed bodyNoCompany) []).2.1 = getHandler [] :=
  C2_missing_field_rejected_no_write false 9 "w2" bodyNoCompany []
    (by decide)

/-! ## C3 -/

/-- C3, counterexample: the claim says a required field that is present
but whitespace-only makes create fail with a ValidationError, but the
handler checks JavaScript truthiness only, and a single-space name is
truthy: the request is accepted with 200 and persisted. -/
theorem C3_counterexample :
    (postHandler false 7 "z9z9z9z9z"
        (BodyInput.parsed bodyBlankName) []).1.statusCode = 200 ∧
    ¬ ((postHandler false 7 "z9z9z9z9z"
        (BodyInput.parsed bodyBlankName) []).1.statusCode = 400) ∧
    (postHandler false 7 "z9z9z9z9z" (BodyInput.parsed bodyBlankName) []).2.1 =
      [("sub_7_z9z9z9z9z",
        ⟨"sub_7_z9z9z9z9z", 7,
         ⟨some " ", some "john@example.com", some "TechCorp", none⟩, exPD,
         .new, none⟩)] := by
  refine ⟨rfl, by decide, ?_⟩
  rfl

/-- C3, amended: a required field that is present but is the empty
string is rejected with a 400 ValidationError and nothing is persisted
(the empty string is falsy); a whitespace-only value, however, passes
the server's truthiness check and is persisted. -/
theorem C3_amended (f : Bool) (now : Nat) (rand : String) (b : RequestBody)
    (store : Store)
    (hblank : b.contactInfo.bind ContactInfo.name = some "" ∨
      b.contactInfo.bind ContactInfo.email = some "" ∨
      b.contactInfo.bind ContactInfo.company = some "" ∨
      b.projectDetails.bind ProjectDetails.projectType = some "" ∨
      b.projectDetails.bind ProjectDetails.description = some "" ∨
      b.projectDetails.bind ProjectDetails.timeline = some "") :
    (postHandler f now rand (BodyInput.parsed b) store).1.statusCode = 400 ∧
    (postHandler f now rand (BodyInput.parsed b) store).1.success = false ∧
    (postHandler f now rand (BodyInput.parsed b) store).2.1 = store := by
  have hv : validBody b = false := by
    rcases hblank with h | h | h | h | h | h <;>
      simp [validBody, h, truthy]
  have := postBody_invalid f now rand store hv
  exact ⟨this.1, this.2.1, this.2.2.1⟩

/-- C3, witness for the amended theorem: the body whose company is the
empty string is rejected with 400 and the store stays empty. -/
theorem C3_witness :
    (postHandler false 4 "w3"
        (BodyInput.parsed bodyEmptyCompany) []).1.statusCode = 400 ∧
    (postHandler false 4 "w3"
        (BodyInput.parsed bodyEmptyCompany) []).1.success = false ∧
    (postHandler false 4 "w3" (BodyInput.parsed bodyEmptyCompany) []).2.1 = [] :=
  C3_amended false 4 "w3" bodyEmptyCompany [] (by decide)

/-! ## C4 -/

/-- C4, confirmed: on a valid body the handler returns the success
response carrying the generated id; that id is the service-generated
token built from the server clock and random component only (never a
client value), is nonempty, and two calls whose clock/random inputs
differ in any way get distinct ids; the created record has status new
and the service timestamp, and exactly that record is written to the
store before the response is returned. -/
theorem C4_create_success (f : Bool) (now now' : Nat) (rand rand' : String)
    (b : RequestBody) (ci : ContactInfo) (pd : ProjectDetails) (store : Store)
    (hci : b.contactInfo = some ci) (hpd : b.projectDetails = some pd)
    (hn : truthy ci.name = true) (he : truthy ci.email = true)
    (hc : truthy ci.company = true) (hp : truthy pd.projectType = true)
    (hd : truthy pd.description = true) (ht : truthy pd.timeline = true)
    (hdiff : (now, rand) ≠ (now', rand')) :
    postHandler f now rand (BodyInput.parsed b) store =
      (okResp (mkId now rand),
       storeSet store (mkId now rand) (newSubmission now rand ci pd),
       some (sendEmailNotification f (newSubmission now rand ci pd))) ∧
    (newSubmission now rand ci pd).id = mkId now rand ∧
    mkId now rand ≠ "" ∧
    (newSubmission now rand ci pd).status = Status.new ∧
    (newSubmission now rand ci pd).timestamp = now ∧
    mkId now rand ≠ mkId now' rand' := by
  refine ⟨postBody_valid_eq f now rand store hci hpd hn he hc hp hd ht,
    rfl, mkId_ne_empty now rand, rfl, rfl, ?_⟩
  intro hid
  exact hdiff (by
    obtain ⟨h1, h2⟩ := mkId_inj hid
    simp [h1, h2])

/-- C4, witness: the spec's concrete scenario body submitted at instant
one with random token aaa, compared against a second call at instant
two. -/
theorem C4_witness :
    postHandler false 1 "aaa" (BodyInput.parsed exBody) [] =
      (okResp (mkId 1 "aaa"),
       storeSet [] (mkId 1 "aaa") (newSubmission 1 "aaa" exCI exPD),
       some (sendEmailNotification false (newSubmission 1 "aaa" exCI exPD))) ∧
    (newSubmission 1 "aaa" exCI exPD).id = mkId 1 "aaa" ∧
    mkId 1 "aaa" ≠ "" ∧
    (newSubmission 1 "aaa" exCI exPD).status = Status.new ∧
    (newSubmission 1 "aaa" exCI exPD).timestamp = 1 ∧
    mkId 1 "aaa" ≠ mkId 2 "aaa" :=
  C4_create_success false 1 2 "aaa" "aaa" exBody exCI exPD []
    rfl rfl (by decide) (by decide) (by decide) (by decide) (by decide)
    (by decide) (by decide)

/-! ## C5 -/

/-- C5, confirmed: the notification sender is a total function into
booleans — true when its try block succeeds, false when an internal
failure is caught — and the handler's response and resulting store are
identical whether or not the notification fails: notification failure
never fails, blocks or reverses a creation. -/
theorem C5_notification_never_fatal (f f' : Bool) (now : Nat) (rand : String)
    (input : BodyInput) (store : Store) (sub : ContactSubmission) :
    sendEmailNotification f sub = !f ∧
    (postHandler f now rand input store).1 =
      (postHandler f' now rand input store).1 ∧
    (postHandler f now rand input store).2.1 =
      (postHandler f' now rand input store).2.1 := by
  refine ⟨by cases f <;> rfl, ?_⟩
  cases input with
  | absent => exact postBody_notify_irrelevant f f' now rand emptyBody store
  | malformed => exact ⟨rfl, rfl⟩
  | parsed b => exact postBody_notify_irrelevant f f' now rand b store

/-! ## C6 -/

/-- C6, confirmed: the GET listing returns a permutation of everything
in the store (all records, each exactly as often as stored) ordered by
timestamp in non-increasing order, newest first; equal timestamps are
not further constrained. -/
theorem C6_list_sorted_desc (store : Store) :
    (getHandler store).Perm (getAll store) ∧
    (getHandler store).Pairwise (fun a b => b.timestamp ≤ a.timestamp) := by
  constructor
  · exact List.mergeSort_perm _ _
  · have hs := @List.sorted_mergeSort ContactSubmission
      (fun a b => decide (b.timestamp ≤ a.timestamp))
      (fun a b c hab hbc => by
        simp only [decide_eq_true_eq] at *
        exact le_trans hbc hab)
      (fun a b => by
        simp only [Bool.or_eq_true, decide_eq_true_eq]
        exact Nat.le_total b.timestamp a.timestamp)
      (getAll store)
    exact hs.imp (fun h => by simpa using h)

/-! ## C7 -/

/-- C7, counterexample: the claim says status only ever advances in the
order new, reviewed, responded, but the dashboard's update operation
moves a responded submission straight back to new, a strictly backward
transition. -/
theorem C7_counterexample :
    (updateSubmissionStatus [exSubResponded] "s1" Status.new none).map
        (fun s => s.status) = [Status.new] ∧
    exSubResponded.status = Status.responded ∧
    statusRank Status.new < statusRank Status.responded := by
  refine ⟨rfl, rfl, by decide⟩

/-- C7, amended: status starts at new (every record the service creates
carries status new), and transitions are any-to-any, performed only by
the explicit staff update action, which sets the targeted submission to
whatever status the staff chose — including moves backward in the
new, reviewed, responded order; no other operation changes a status. -/
theorem C7_amended (now : Nat) (rand : String) (ci : ContactInfo)
    (pd : ProjectDetails) (sub : ContactSubmission) (st : Status)
    (notes : Option String) :
    (newSubmission now rand ci pd).status = Status.new ∧
    ∃ s', updateSubmissionStatus [sub] sub.id st notes = [s'] ∧
      s'.status = st ∧ s'.id = sub.id ∧ s'.timestamp = sub.timestamp := by
  refine ⟨rfl, ?_⟩
  refine ⟨{ sub with
      status := st
      notes := match notes with
        | some n => some n
        | none => sub.notes }, ?_, rfl, rfl, rfl⟩
  simp [updateSubmissionStatus]

/-! ## C8 -/

/-- C8, confirmed: every emitted CSV data row has exactly the twelve
columns in the fixed order, with the description and requirements
columns wrapped in double quotes after doubling every internal double
quote and every other column emitted as the raw field value; reversing
the standard CSV double-quote escaping on a quoted field reproduces the
original string exactly, in particular for the row's description. -/
theorem C8_csv_quoting_roundtrip (sub : ContactSubmission) (d s : String)
    (hdesc : sub.projectDetails.description = some d) :
    csvRow sub = some
      [ sub.id,
        decStr sub.timestamp,
        optStr sub.contactInfo.name,
        optStr sub.contactInfo.email,
        optStr sub.contactInfo.company,
        optStr sub.contactInfo.phone,
        optStr sub.projectDetails.projectType,
        optStr sub.projectDetails.timeline,
        optStr sub.projectDetails.budget,
        statusStr sub.status,
        quoteField d,
        quoteField (optStr sub.projectDetails.requirements) ] ∧
    unquoteField (quoteField d) = some d ∧
    unquoteField (quoteField s) = some s := by
  exact ⟨by simp [csvRow, hdesc], unquoteField_quoteField d,
    unquoteField_quoteField s⟩

/-- C8, witness: the row of a stored submission whose description and
requirements both contain double quotes, and the round trip on a string
with an internal double quote. -/
theorem C8_witness :
    csvRow exSubQuote = some
      [ exSubQuote.id,
        decStr exSubQuote.timestamp,
        optStr exSubQuote.contactInfo.name,
        optStr exSubQuote.contactInfo.email,
        optStr exSubQuote.contactInfo.company,
        optStr exSubQuote.contactInfo.phone,
        optStr exSubQuote.projectDetails.projectType,
        optStr exSubQuote.projectDetails.timeline,
        optStr exSubQuote.projectDetails.budget,
        statusStr exSubQuote.status,
        quoteField "say \"hi\" twice",
        quoteField (optStr exSubQuote.projectDetails.requirements) ] ∧
    unquoteField (quoteField "say \"hi\" twice") = some "say \"hi\" twice" ∧
    unquoteField (quoteField "a\"b") = some "a\"b" :=
  C8_csv_quoting_roundtrip exSubQuote "say \"hi\" twice" "a\"b" rfl

/-! ## C9 -/

/-- C9, counterexample: the claim says an absent body is answered with
500, but the handler substitutes the empty-object literal for an absent
body before parsing, so the request reaches validation and is answered
with the 400 missing-contact-information response, not 500. -/
theorem C9_counterexample :
    (postHandler false 2 "q" BodyInput.absent []).1.statusCode = 400 ∧
    ¬ ((postHandler false 2 "q" BodyInput.absent []).1.statusCode = 500) ∧
    (postHandler false 2 "q" BodyInput.absent []).1.error =
      some "Missing required contact information" := by
  refine ⟨rfl, by decide, rfl⟩

/-- C9, amended: a POST whose body is present but not parseable JSON is
answered 500 with no store write; an absent body is treated as the empty
object and therefore answered 400 with no store write; and a parseable
body is answered 400 only when its required-field validation fails. -/
theorem C9_amended (f : Bool) (now : Nat) (rand : String) (store : Store)
    (b : RequestBody)
    (h400 : (postHandler f now rand (BodyInput.parsed b) store).1.statusCode
      = 400) :
    postHandler f now rand BodyInput.malformed store =
      (errResp 500 "Failed to process submission", store, none) ∧
    (postHandler f now rand BodyInput.absent store).1 =
      errResp 400 "Missing required contact information" ∧
    (postHandler f now rand BodyInput.absent store).2.1 = store ∧
    validBody b = false := by
  refine ⟨rfl, rfl, rfl, ?_⟩
  by_contra hv
  rw [Bool.not_eq_false] at hv
  obtain ⟨ci, pd, hci, hpd, hn, he, hc, hp, hd, ht⟩ := validBody_elim hv
  rw [show postHandler f now rand (BodyInput.parsed b) store =
        postBody f now rand b store from rfl,
      postBody_valid_eq f now rand store hci hpd hn he hc hp hd ht] at h400
  simp [okResp] at h400

/-- C9, witness: the body that parses to the empty object is answered
400, while a malformed body is answered 500 and an absent one 400. -/
theorem C9_witness :
    postHandler false 6 "w9" BodyInput.malformed [] =
      (errResp 500 "Failed to process submission", [], none) ∧
    (postHandler false 6 "w9" BodyInput.absent []).1 =
      errResp 400 "Missing required contact information" ∧
    (postHandler false 6 "w9" BodyInput.absent []).2.1 = [] ∧
    validBody emptyBody = false :=
  C9_amended false 6 "w9" [] emptyBody (by decide)

/-! ## C10 -/

/-- C10, confirmed: the dashboard update preserves the length and the
positional order of the submission list; every entry whose id differs
from the target is unchanged, and the entry whose id matches keeps its
id, timestamp, contact and project data, gets the chosen status, and
gets the supplied notes when a notes argument was given while keeping
its previous notes when the argument was omitted. -/
theorem C10_update_frame (subs : List ContactSubmission) (id : String)
    (st : Status) (notes : Option String) (i : Nat) :
    (updateSubmissionStatus subs id st notes).length = subs.length ∧
    (updateSubmissionStatus subs id st notes)[i]? = subs[i]?.map
      (fun sub =>
        if sub.id = id then
          { id := sub.id, timestamp := sub.timestamp,
            contactInfo := sub.contactInfo,
            projectDetails := sub.projectDetails, status := st,
            notes := match notes with
              | some n => some n
              | none => sub.notes }
        else sub) := by
  constructor
  · simp [updateSubmissionStatus]
  · rw [updateSubmissionStatus, List.getElem?_map]

end Lovania
